import Mathlib

/-!
Shallow embedding of `torch/csrc/jit/mobile/model_tracer/TracerRunner.cpp`:
the mobile model-tracer core that runs a model bundle under instrumentation
twice (under two quantized backend engines), statically recovers custom
classes from operator schemas, and aggregates a trace manifest.

External collaborators (the model bundle runner, the four observer slots,
the operator registry contents) are modelled as explicit parameters; all
control flow and merge logic is translated from the source file.
-/

namespace ModelTracer

/-! ## String utilities mirroring the std::string operations used in the source -/

/-- `pat` occurs as a contiguous substring of `s`
(mirrors `std::string::find(pat) != std::string::npos`). -/
def hasSubstring : List Char → List Char → Bool
  | s, pat =>
    pat.isPrefixOf s ||
      match s with
      | [] => false
      | _ :: t => hasSubstring t pat

/-- `type_name.find("__torch__") != std::string::npos` in `record_if_class`. -/
def hasTorchMarker (type_name : String) : Bool :=
  hasSubstring type_name.data ("__torch__".data)

/-- `type_name.substr(type_name.find_last_of('.') + 1)`: the text after the
last dot of the string.  When the string has no dot, `find_last_of` returns
`npos` and `npos + 1` wraps to `0`, so `substr` yields the whole string; the
trailing run of non-dot characters is exactly that behaviour. -/
def afterLastDot (s : String) : String :=
  String.mk ((s.data.reverse.takeWhile (fun c => c ≠ '.')).reverse)

/-! ## The fixed GPU (Metal) operator reference table -/

/-- `gpu_metal_operators` from TracerRunner.cpp. -/
def gpu_metal_operators : List String :=
  [ "aten::conv2d",
    "aten::add.Tensor",
    "aten::add_.Tensor",
    "aten::addmm",
    "aten::empty.memory_format",
    "aten::empty_strided",
    "aten::log_softmax.int",
    "aten::max_pool2d",
    "aten::mul.Tensor",
    "aten::relu",
    "aten::relu_",
    "aten::sigmoid",
    "aten::sub.Tensor",
    "aten::upsample_nearest2d.vec",
    "aten::view",
    "aten::adaptive_avg_pool2d",
    "aten::hardtanh_",
    "aten::reshape",
    "aten::flatten.using_ints" ]

/-- The GPU reference table as a set. -/
def gpuMetalOps : Finset String := gpu_metal_operators.toFinset

/-- Modelled from the spec (§4.2): `MobileModelRunner::set_has_metal_gpu_operators`
is not part of the provided sources; the spec states it is a pure function of the
declared root-operator set, true iff that set intersects the fixed reference
table of GPU-backend-only operator names. -/
def set_has_metal_gpu_operators (root_ops : Finset String) : Bool :=
  decide (root_ops ∩ gpuMetalOps).Nonempty

/-! ## Operator schemas and the process-wide registry -/

/-- An operator schema: the operator name, its overload tag, and the
human-readable type-annotation strings of its arguments and returns
(`arg.type()->annotation_str()` / `ret.type()->annotation_str()`). -/
structure FunctionSchema where
  name : String
  overload_name : String
  arguments : List String
  returns : List String
  deriving DecidableEq

/-- An operator name as stored in the dispatcher: base name plus overload tag. -/
structure OperatorName where
  name : String
  overload_name : String
  deriving DecidableEq

/-- The qualified operator identity: `base`, or `base + "." + overload` when
the overload tag is non-empty. -/
def qualifiedOpName (name overload_name : String) : String :=
  if overload_name = "" then name else name ++ "." ++ overload_name

/-- The contents of the process-wide operator registry, an external
collaborator: the jit operators (`torch::jit::getAllOperators`, each carrying
its schema) and the dispatcher operators (`c10::Dispatcher::getAllOpNames`,
each with its schema when `hasSchema()` holds). -/
structure OpRegistry where
  jitOperators : List FunctionSchema
  dispatcherOperators : List (OperatorName × Option FunctionSchema)

/-- The map type built by `_get_runtime_ops_and_schema`
(`std::unordered_map<std::string, c10::FunctionSchema>`), as an association
list looked up with `List.lookup`. -/
abbrev SchemaMap := List (String × FunctionSchema)

/-- `std::unordered_map::emplace`: inserts only when the key is absent. -/
def emplaceSchema (m : SchemaMap) (k : String) (v : FunctionSchema) : SchemaMap :=
  if (m.lookup k).isSome then m else (k, v) :: m

/-- `_get_runtime_ops_and_schema`: the jit operators are inserted first, then
the dispatcher operators that have a schema, keyed by qualified name; `emplace`
keeps the first binding of each key. -/
def _get_runtime_ops_and_schema (reg : OpRegistry) : SchemaMap :=
  let m :=
    reg.jitOperators.foldl
      (fun m op => emplaceSchema m (qualifiedOpName op.name op.overload_name) op) []
  reg.dispatcherOperators.foldl
    (fun m entry =>
      match entry.2 with
      | some sch => emplaceSchema m (qualifiedOpName entry.1.name entry.1.overload_name) sch
      | none => m)
    m

/-! ## Schema-based custom-class recovery (`recordCustomClassesFromOpSchemas`) -/

/-- The lambda `record_if_class`: if the annotation string contains the
`__torch__` marker, insert the simple name (text after the final dot) into the
loaded-classes set. -/
def record_if_class (loaded_classes : Finset String) (type_name : String) : Finset String :=
  if hasTorchMarker type_name then
    insert (afterLastDot type_name) loaded_classes
  else
    loaded_classes

/-- The per-operator body of the recovery loop: look the operator up in the
schema map; when absent, skip it; when present, run `record_if_class` over
every argument annotation and then every return annotation. -/
def processOp (m : SchemaMap) (loaded_classes : Finset String) (op_name : String) :
    Finset String :=
  match m.lookup op_name with
  | none => loaded_classes
  | some schema => (schema.arguments ++ schema.returns).foldl record_if_class loaded_classes

/-- The iteration order of a `std::set<std::string>`: its elements in
ascending order. -/
def sortOps (s : Finset String) : List String :=
  Quot.liftOn s.val (fun l => l.insertionSort (· ≤ ·)) fun l₁ l₂ p =>
    List.eq_of_perm_of_sorted
      ((List.perm_insertionSort _ l₁).trans (p.trans (List.perm_insertionSort _ l₂).symm))
      (List.sorted_insertionSort _ l₁) (List.sorted_insertionSort _ l₂)

/-- The recovery loop over the combined operator set, iterated in sorted order
as a `std::set` is. -/
def recordOverOps (m : SchemaMap) (ops : Finset String) (loaded_classes : Finset String) :
    Finset String :=
  (sortOps ops).foldl (processOp m) loaded_classes

/-- `recordCustomClassesFromOpSchemas`: form `ops = root_ops ∪ traced_ops`,
build the schema map from the registry, and fold the recovery loop over `ops`
starting from the given `loaded_classes` set. -/
def recordCustomClassesFromOpSchemas (reg : OpRegistry)
    (root_ops traced_ops loaded_classes : Finset String) : Finset String :=
  recordOverOps (_get_runtime_ops_and_schema reg) (root_ops ∪ traced_ops) loaded_classes

/-! ## The execution model: bundles, accumulators, events -/

/-- The two quantized backend engines selected via
`at::globalContext().setQEngine`. -/
inductive QEngine
  | QNNPACK
  | FBGEMM
  deriving DecidableEq

/-- Whether a tensor handed to the post-processing hook `consume_tensor`
came from the bundled inputs or from an inference result. -/
inductive TensorOrigin
  | bundledInput
  | inferenceResult
  deriving DecidableEq

/-- Observable actions of the driver, in program order.  `consumeTensor`
is one application of the `consume_tensor` post-processing (copy-to-host)
hook; `runInference` is one `run_with_inputs` call; `beginPass` marks the
entry of one `run_model` execution pass. -/
inductive Event
  | setQEngine (e : QEngine)
  | clearUnobservedOperators
  | installTracers
  | callSetupMethods
  | beginPass (path : String)
  | consumeTensor (origin : TensorOrigin) (id : Nat)
  | runInference (method : String)
  | readObservers
  deriving DecidableEq

/-- Modelled from the spec (§4.2): a result value produced by
`run_with_inputs` is abstracted by the list of its tensor-like leaves, which
is what `for_each_tensor_in_ivalue` (an external collaborator) visits. -/
structure IValue where
  tensorLeaves : List Nat

/-- Modelled from the spec (§4.2, §6): the behaviour of one model bundle as
exposed through `MobileModelRunner` (an external collaborator): its declared
root operators, the tensors nested in its bundled inputs (in visit order),
which bundled-input convention it uses, the bundled inputs per convention,
and the results of executing a named method against input tuples.  The
legacy convention executes the single default method `"forward"`. -/
structure Bundle where
  path : String
  rootOperators : Finset String
  bundledInputTensors : List Nat
  hasNewStyleBundledInputs : Bool
  newStyleBundledInputs : List (String × List (List IValue))
  legacyBundledInputs : List (List IValue)
  runMethod : String → List (List IValue) → List IValue

/-- `KernelDTypeTracer::kernel_tags_type`
(`std::map<std::string, std::set<std::string>>`), as a lookup function. -/
def KernelTags : Type := String → Option (Finset String)

/-- `std::map::operator[]` followed by assignment: binds `k` to `v`,
overwriting any previous binding. -/
def KernelTags.store (m : KernelTags) (k : String) (v : Finset String) : KernelTags :=
  fun q => if q = k then some v else m q

/-- `std::map::insert(first, last)`: each entry is inserted only if its key
is not already bound; existing bindings are kept. -/
def KernelTags.insertRange (m : KernelTags) (l : List (String × Finset String)) : KernelTags :=
  l.foldl
    (fun m kv => fun q => if q = kv.1 then some ((m kv.1).getD kv.2) else m q)
    m

/-- The three by-reference accumulators threaded through `run_model`. -/
structure Accum where
  root_ops : Finset String
  enabled_backends : Finset String
  called_kernel_tags : KernelTags

/-- The accumulators as initialised in `trace_run` (all empty). -/
def Accum.init : Accum :=
  { root_ops := ∅, enabled_backends := ∅, called_kernel_tags := fun _ => none }

/-- The state right after `root_ops = module_runner.get_root_operators()`:
the first statement of `run_model` assigns (and thereby overwrites) the
`root_ops` accumulator with the bundle's declared root-operator set. -/
def afterRootAssign (b : Bundle) (s : Accum) : Accum :=
  { s with root_ops := b.rootOperators }

/-- The `consume_tensor` applications for a list of tensors. -/
def consumeEvents (origin : TensorOrigin) (tensors : List Nat) : List Event :=
  tensors.map (Event.consumeTensor origin)

/-- `run_model`: one execution pass.  Reads the declared root operators into
the accumulator (an assignment), then branches on the GPU test: a GPU-oriented
bundle gets the fixed Metal table unioned into `root_ops`, the synthetic
`"__unused__" ↦ {"Float"}` kernel-tag entry, the `"Metal GPU"` backend, and
only its bundled-input tensors consumed; a CPU bundle gets the `"CPU"`
backend, its bundled-input tensors consumed, and its bundled inputs executed
per convention with every tensor leaf of every result consumed. -/
def run_model (b : Bundle) (s : Accum) : Accum × List Event :=
  let s := afterRootAssign b s
  if set_has_metal_gpu_operators b.rootOperators then
    let s := { s with root_ops := s.root_ops ∪ gpuMetalOps }
    let s := { s with
      called_kernel_tags := s.called_kernel_tags.store "__unused__" {"Float"} }
    let s := { s with enabled_backends := insert "Metal GPU" s.enabled_backends }
    (s, Event.beginPass b.path :: consumeEvents TensorOrigin.bundledInput b.bundledInputTensors)
  else
    let s := { s with enabled_backends := insert "CPU" s.enabled_backends }
    let inputEvents := consumeEvents TensorOrigin.bundledInput b.bundledInputTensors
    let runEvents :=
      if b.hasNewStyleBundledInputs then
        b.newStyleBundledInputs.flatMap fun entry =>
          Event.runInference entry.1 ::
            consumeEvents TensorOrigin.inferenceResult
              ((b.runMethod entry.1 entry.2).flatMap IValue.tensorLeaves)
      else
        Event.runInference "forward" ::
          consumeEvents TensorOrigin.inferenceResult
            ((b.runMethod "forward" b.legacyBundledInputs).flatMap IValue.tensorLeaves)
    (s, Event.beginPass b.path :: (inputEvents ++ runEvents))

/-! ## The session driver (`trace_run`) -/

/-- The contents of the four process-wide recording slots as read by
`trace_run`, together with the registry and the always-included baseline set.
The operator-call recorder is cumulative: `getCalledOperators()` returns the
union of what the warm-up block (`call_setup_methods`) and the two execution
passes recorded while the tracer was live, split here into three parts.
`always_included_traced_ops` is modelled from the spec (§4.4): the fixed
always-included baseline operator set is declared outside the provided
sources, so it is kept abstract. -/
structure TraceEnv where
  op_setup : Finset String
  op_pass1 : Finset String
  op_pass2 : Finset String
  kd_recorded : List (String × Finset String)
  custom_class_recorded : Finset String
  build_feature_recorded : Finset String
  always_included_traced_ops : Finset String
  registry : OpRegistry

/-- `TracerResult`: the six-field trace manifest returned by `trace_run`. -/
structure TracerResult where
  root_ops : Finset String
  traced_operators : Finset String
  called_kernel_tags : KernelTags
  loaded_classes : Finset String
  build_features : Finset String
  enabled_backends : Finset String

/-- `trace_run`: select QNNPACK and clear the unobserved-operator list,
install the four tracers, run the warm-up block, run two execution passes
over the same bundle (the second under FBGEMM), then read the observers:
`traced_operators` is the operator tracer's recorded set; schema recovery
runs over `root_ops ∪ traced_operators` before the baseline set is merged
into `traced_operators`; the kernel-dtype recordings are range-inserted into
the accumulated kernel tags; the custom-class and build-feature recordings
are merged in; the manifest is assembled from the results. -/
def trace_run (env : TraceEnv) (b : Bundle) : TracerResult × List Event :=
  let pre : List Event :=
    [Event.setQEngine QEngine.QNNPACK, Event.clearUnobservedOperators,
     Event.installTracers, Event.callSetupMethods]
  let pass1 := run_model b Accum.init
  let pass2 := run_model b pass1.1
  let traced_operators := env.op_setup ∪ env.op_pass1 ∪ env.op_pass2
  let loaded_classes :=
    recordCustomClassesFromOpSchemas env.registry pass2.1.root_ops traced_operators ∅
  let called_kernel_tags := pass2.1.called_kernel_tags.insertRange env.kd_recorded
  let traced_operators := traced_operators ∪ env.always_included_traced_ops
  let loaded_classes := loaded_classes ∪ env.custom_class_recorded
  let build_features := env.build_feature_recorded
  (⟨pass2.1.root_ops, traced_operators, called_kernel_tags, loaded_classes,
      build_features, pass2.1.enabled_backends⟩,
    pre ++ pass1.2 ++ [Event.setQEngine QEngine.FBGEMM] ++ pass2.2 ++ [Event.readObservers])

/-! ## Event classification helpers -/

/-- Is this event the entry of an execution pass? -/
def isBeginPass : Event → Bool
  | Event.beginPass _ => true
  | _ => false

/-- Is this event part of a pass body (a hook application or an inference run)? -/
def isPassBody : Event → Bool
  | Event.consumeTensor _ _ => true
  | Event.runInference _ => true
  | _ => false

/-- The backend engine active at the start of each execution pass: walk the
event list carrying the engine last selected by `setQEngine`, emitting the
current engine at each `beginPass`. -/
def passEngines : List Event → Option QEngine → List (Option QEngine)
  | [], _ => []
  | Event.setQEngine e :: t, _ => passEngines t (some e)
  | Event.beginPass _ :: t, cur => cur :: passEngines t cur
  | _ :: t, cur => passEngines t cur

/-! ## Concrete registries and bundles used to instantiate the theorems -/

/-- A registry holding one jit operator whose return annotation references a
custom class (the example schema from the source comment). -/
def regPrepack : OpRegistry :=
  { jitOperators :=
      [ { name := "prepacked::linear_clamp_prepack", overload_name := "",
          arguments := ["Tensor", "Tensor?", "Scalar?", "Scalar?"],
          returns := ["__torch__.torch.classes.xnnpack.LinearOpContext"] } ],
    dispatcherOperators := [] }

/-- The schema stored in `regPrepack`. -/
def schPrepack : FunctionSchema :=
  { name := "prepacked::linear_clamp_prepack", overload_name := "",
    arguments := ["Tensor", "Tensor?", "Scalar?", "Scalar?"],
    returns := ["__torch__.torch.classes.xnnpack.LinearOpContext"] }

/-- A bundle declaring a single GPU-table root operator, with two
bundled-input tensors; the GPU branch never executes its methods. -/
def bGpuOnly : Bundle :=
  { path := "gpu_model.ptl",
    rootOperators := {"aten::conv2d"},
    bundledInputTensors := [5, 6],
    hasNewStyleBundledInputs := false,
    newStyleBundledInputs := [],
    legacyBundledInputs := [],
    runMethod := fun _ _ => [] }

/-- A CPU bundle with no root operators and no bundled-input tensors. -/
def bLegacyEmpty : Bundle :=
  { path := "cpu_model.ptl",
    rootOperators := ∅,
    bundledInputTensors := [],
    hasNewStyleBundledInputs := false,
    newStyleBundledInputs := [],
    legacyBundledInputs := [],
    runMethod := fun _ _ => [] }

/-- An environment in which only the warm-up block recorded one operator
call and one kernel tag; both execution passes recorded nothing. -/
def envWarm : TraceEnv :=
  { op_setup := {"aten::zeros"},
    op_pass1 := ∅,
    op_pass2 := ∅,
    kd_recorded := [("copy_kernel", {"Float"})],
    custom_class_recorded := ∅,
    build_feature_recorded := ∅,
    always_included_traced_ops := ∅,
    registry := ⟨[], []⟩ }

/-- An environment with nothing recorded at all. -/
def envTrivial : TraceEnv :=
  { op_setup := ∅,
    op_pass1 := ∅,
    op_pass2 := ∅,
    kd_recorded := [],
    custom_class_recorded := ∅,
    build_feature_recorded := ∅,
    always_included_traced_ops := ∅,
    registry := ⟨[], []⟩ }

/-- The same environment with the two passes' operator-call recordings
exchanged. -/
def swapPasses (env : TraceEnv) : TraceEnv :=
  { env with op_pass1 := env.op_pass2, op_pass2 := env.op_pass1 }

end ModelTracer

namespace ModelTracer

/-! ## Lemmas about the recovery pass -/

lemma record_if_class_shift (L : Finset String) (a : String) :
    record_if_class L a = L ∪ record_if_class ∅ a := by
  by_cases h : hasTorchMarker a <;> simp only [record_if_class, h, if_true, if_false]
  · ext y
    simp only [Finset.mem_insert, Finset.mem_union, Finset.not_mem_empty, or_false]
    exact or_comm
  · simp

lemma foldl_union_shift (f : Finset String → String → Finset String)
    (hf : ∀ L a, f L a = L ∪ f ∅ a) :
    ∀ (l : List String) (L : Finset String), l.foldl f L = L ∪ l.foldl f ∅
  | [], L => by simp
  | a :: t, L => by
    simp only [List.foldl_cons]
    rw [foldl_union_shift f hf t (f L a), foldl_union_shift f hf t (f ∅ a), hf L a,
      Finset.union_assoc]

lemma foldl_record_if_class_shift (anns : List String) (L : Finset String) :
    anns.foldl record_if_class L = L ∪ anns.foldl record_if_class ∅ :=
  foldl_union_shift record_if_class record_if_class_shift anns L

lemma processOp_shift (m : SchemaMap) (L : Finset String) (op : String) :
    processOp m L op = L ∪ processOp m ∅ op := by
  unfold processOp
  cases h : m.lookup op
  · simp
  · exact foldl_record_if_class_shift _ L

lemma recordOverOps_shift (m : SchemaMap) (ops : Finset String) (L : Finset String) :
    recordOverOps m ops L = L ∪ recordOverOps m ops ∅ :=
  foldl_union_shift (processOp m) (processOp_shift m) (sortOps ops) L

lemma mem_record_if_class_empty (a x : String) :
    x ∈ record_if_class ∅ a ↔ hasTorchMarker a = true ∧ x = afterLastDot a := by
  by_cases h : hasTorchMarker a <;> simp [record_if_class, h]

lemma mem_foldl_record_if_class (anns : List String) (x : String) :
    x ∈ anns.foldl record_if_class ∅ ↔
      ∃ a ∈ anns, hasTorchMarker a = true ∧ x = afterLastDot a := by
  induction anns with
  | nil => simp
  | cons a t ih =>
    rw [List.foldl_cons, foldl_record_if_class_shift]
    simp only [Finset.mem_union, ih, mem_record_if_class_empty, List.mem_cons]
    constructor
    · rintro (h | ⟨b, hb, hm⟩)
      · exact ⟨a, Or.inl rfl, h⟩
      · exact ⟨b, Or.inr hb, hm⟩
    · rintro ⟨b, rfl | hb, hm⟩
      · exact Or.inl hm
      · exact Or.inr ⟨b, hb, hm⟩

lemma mem_processOp_empty (m : SchemaMap) (op x : String) :
    x ∈ processOp m ∅ op ↔
      ∃ sch, m.lookup op = some sch ∧
        ∃ a ∈ sch.arguments ++ sch.returns, hasTorchMarker a = true ∧ x = afterLastDot a := by
  unfold processOp
  cases h : m.lookup op with
  | none => simp
  | some sch =>
    rw [mem_foldl_record_if_class]
    constructor
    · rintro ⟨a, ha, hm⟩
      exact ⟨sch, rfl, a, ha, hm⟩
    · rintro ⟨sch', hsch', a, ha, hm⟩
      cases hsch'
      exact ⟨a, ha, hm⟩

lemma mem_sortOps (s : Finset String) (x : String) : x ∈ sortOps s ↔ x ∈ s := by
  rcases s with ⟨val, nd⟩
  induction val using Quot.inductionOn with
  | h l =>
    show x ∈ l.insertionSort (· ≤ ·) ↔ _
    rw [List.mem_insertionSort]
    simp [Finset.mem_mk]

lemma mem_foldl_processOp (m : SchemaMap) (l : List String) (x : String) :
    x ∈ l.foldl (processOp m) ∅ ↔ ∃ op ∈ l, x ∈ processOp m ∅ op := by
  induction l with
  | nil => simp
  | cons a t ih =>
    rw [List.foldl_cons, foldl_union_shift (processOp m) (processOp_shift m)]
    simp only [Finset.mem_union, ih, List.mem_cons]
    constructor
    · rintro (h | ⟨b, hb, hm⟩)
      · exact ⟨a, Or.inl rfl, h⟩
      · exact ⟨b, Or.inr hb, hm⟩
    · rintro ⟨b, rfl | hb, hm⟩
      · exact Or.inl hm
      · exact Or.inr ⟨b, hb, hm⟩

lemma mem_recordOverOps (m : SchemaMap) (ops : Finset String) (L : Finset String) (x : String) :
    x ∈ recordOverOps m ops L ↔ x ∈ L ∨ ∃ op ∈ ops, x ∈ processOp m ∅ op := by
  rw [recordOverOps_shift]
  unfold recordOverOps
  rw [Finset.mem_union, mem_foldl_processOp]
  constructor
  · rintro (h | ⟨op, hop, hm⟩)
    · exact Or.inl h
    · exact Or.inr ⟨op, (mem_sortOps ops op).mp hop, hm⟩
  · rintro (h | ⟨op, hop, hm⟩)
    · exact Or.inl h
    · exact Or.inr ⟨op, (mem_sortOps ops op).mpr hop, hm⟩

lemma foldl_record_if_class_no_marker (anns : List String) (L : Finset String)
    (h : ∀ a ∈ anns, hasTorchMarker a = false) :
    anns.foldl record_if_class L = L := by
  induction anns generalizing L with
  | nil => rfl
  | cons a t ih =>
    have ha : hasTorchMarker a = false := h a (List.mem_cons_self a t)
    rw [List.foldl_cons]
    have hra : record_if_class L a = L := by simp [record_if_class, ha]
    rw [hra]
    exact ih L fun b hb => h b (List.mem_cons_of_mem a hb)

/-! ## Claim theorems about schema-based custom-class recovery -/

/-- C5: for an operator of the recovery input set whose schema is present in
the registry map, every argument or return annotation containing the
`__torch__` marker has its simple name (the text after the final dot)
recorded into the recovered set, and a schema all of whose annotations lack
the marker contributes zero entries for that operator. -/
theorem recovery_records_marked_annotations
    (reg : OpRegistry) (root_ops traced_ops loaded_classes : Finset String)
    (op : String) (sch : FunctionSchema)
    (hop : op ∈ root_ops ∪ traced_ops)
    (hsch : (_get_runtime_ops_and_schema reg).lookup op = some sch) :
    (∀ ann ∈ sch.arguments ++ sch.returns, hasTorchMarker ann = true →
        afterLastDot ann ∈
          recordCustomClassesFromOpSchemas reg root_ops traced_ops loaded_classes) ∧
    ((∀ ann ∈ sch.arguments ++ sch.returns, hasTorchMarker ann = false) →
        ∀ L : Finset String, processOp (_get_runtime_ops_and_schema reg) L op = L) := by
  constructor
  · intro ann hann hmark
    unfold recordCustomClassesFromOpSchemas
    rw [mem_recordOverOps]
    exact Or.inr ⟨op, hop,
      (mem_processOp_empty _ op _).mpr ⟨sch, hsch, ann, hann, hmark, rfl⟩⟩
  · intro hnone L
    unfold processOp
    rw [hsch]
    exact foldl_record_if_class_no_marker _ L hnone

/-- Witness for C5 at the example schema from the source comment. -/
theorem recovery_records_marked_annotations_witness :
    afterLastDot "__torch__.torch.classes.xnnpack.LinearOpContext" ∈
      recordCustomClassesFromOpSchemas regPrepack
        {"prepacked::linear_clamp_prepack"} ∅ ∅ :=
  (recovery_records_marked_annotations regPrepack {"prepacked::linear_clamp_prepack"} ∅ ∅
      "prepacked::linear_clamp_prepack" schPrepack (by decide) (by decide)).1
    "__torch__.torch.classes.xnnpack.LinearOpContext" (by decide) (by decide)

/-- C6: an operator of the recovery input set with no schema in the registry
map is skipped without error: its per-operator step is the identity, and the
whole recovery result is unchanged if the operator is erased from the input
set — every other operator is still processed. -/
theorem recovery_skips_missing_schema
    (reg : OpRegistry) (root_ops traced_ops loaded_classes : Finset String) (op : String)
    (hnone : (_get_runtime_ops_and_schema reg).lookup op = none) :
    (∀ L : Finset String, processOp (_get_runtime_ops_and_schema reg) L op = L) ∧
    recordCustomClassesFromOpSchemas reg root_ops traced_ops loaded_classes
      = recordOverOps (_get_runtime_ops_and_schema reg)
          ((root_ops ∪ traced_ops).erase op) loaded_classes := by
  constructor
  · intro L
    unfold processOp
    rw [hnone]
  · unfold recordCustomClassesFromOpSchemas
    ext x
    rw [mem_recordOverOps, mem_recordOverOps]
    constructor
    · rintro (h | ⟨op', hop', hm⟩)
      · exact Or.inl h
      · rcases (mem_processOp_empty _ op' x).mp hm with ⟨sch, hsch, _⟩
        have hne : op' ≠ op := fun he => by rw [he, hnone] at hsch; exact Option.noConfusion hsch
        exact Or.inr ⟨op', Finset.mem_erase.mpr ⟨hne, hop'⟩, hm⟩
    · rintro (h | ⟨op', hop', hm⟩)
      · exact Or.inl h
      · exact Or.inr ⟨op', (Finset.mem_erase.mp hop').2, hm⟩

/-- Witness for C6: a GPU-only operator absent from an empty registry. -/
theorem recovery_skips_missing_schema_witness :
    (∀ L : Finset String, processOp (_get_runtime_ops_and_schema ⟨[], []⟩) L "metal::copy_to_host" = L) ∧
    recordCustomClassesFromOpSchemas ⟨[], []⟩ {"metal::copy_to_host"} ∅ ∅
      = recordOverOps (_get_runtime_ops_and_schema ⟨[], []⟩)
          ((({"metal::copy_to_host"} : Finset String) ∪ ∅).erase "metal::copy_to_host") ∅ :=
  recovery_skips_missing_schema ⟨[], []⟩ {"metal::copy_to_host"} ∅ ∅
    "metal::copy_to_host" (by decide)

/-- C7: the recovery pass is a pure function of its inputs, and running it a
second time over the identical operator input set (starting from the set the
first run produced, as re-running on the same by-reference output set does)
yields the identical recovered set. -/
theorem recovery_idempotent
    (reg : OpRegistry) (root_ops traced_ops loaded_classes : Finset String) :
    recordCustomClassesFromOpSchemas reg root_ops traced_ops
        (recordCustomClassesFromOpSchemas reg root_ops traced_ops loaded_classes)
      = recordCustomClassesFromOpSchemas reg root_ops traced_ops loaded_classes := by
  unfold recordCustomClassesFromOpSchemas
  rw [recordOverOps_shift _ _ loaded_classes,
    recordOverOps_shift _ _
      (loaded_classes ∪ recordOverOps (_get_runtime_ops_and_schema reg) (root_ops ∪ traced_ops) ∅),
    Finset.union_assoc, Finset.union_self]

/-- C10: an annotation string containing the `__torch__` marker but no dot
character is inserted whole: `find_last_of` returns `npos`, `npos + 1` wraps
to `0`, and `substr(0)` is the entire string. -/
theorem record_if_class_no_dot (L : Finset String) (ann : String)
    (hmark : hasTorchMarker ann = true) (hnodot : ∀ c ∈ ann.data, c ≠ '.') :
    afterLastDot ann = ann ∧ record_if_class L ann = insert ann L := by
  have hall : ann.data.reverse.takeWhile (fun c => c ≠ '.') = ann.data.reverse := by
    apply List.takeWhile_eq_self_iff.mpr
    intro c hc
    simpa using hnodot c (List.mem_reverse.mp hc)
  have hdot : afterLastDot ann = ann := by
    unfold afterLastDot
    rw [hall, List.reverse_reverse]
  refine ⟨hdot, ?_⟩
  unfold record_if_class
  rw [hmark, if_pos rfl, hdot]

/-- Witness for C10 at a dotless marked annotation. -/
theorem record_if_class_no_dot_witness :
    afterLastDot "__torch__Ctx" = "__torch__Ctx" ∧
      record_if_class ∅ "__torch__Ctx" = insert "__torch__Ctx" ∅ :=
  record_if_class_no_dot ∅ "__torch__Ctx" (by decide) (by decide)

/-! ## Lemmas about `run_model` and the kernel-tag map -/

lemma run_model_gpu (b : Bundle) (s : Accum)
    (h : set_has_metal_gpu_operators b.rootOperators = true) :
    run_model b s =
      (⟨b.rootOperators ∪ gpuMetalOps, insert "Metal GPU" s.enabled_backends,
          s.called_kernel_tags.store "__unused__" {"Float"}⟩,
        Event.beginPass b.path ::
          consumeEvents TensorOrigin.bundledInput b.bundledInputTensors) := by
  unfold run_model afterRootAssign
  rw [if_pos h]

lemma run_model_cpu (b : Bundle) (s : Accum)
    (h : set_has_metal_gpu_operators b.rootOperators = false) :
    (run_model b s).1
      = ⟨b.rootOperators, insert "CPU" s.enabled_backends, s.called_kernel_tags⟩ := by
  unfold run_model afterRootAssign
  rw [if_neg (by simp [h])]

lemma run_model_gpu_root (b : Bundle) (s : Accum)
    (h : set_has_metal_gpu_operators b.rootOperators = true) :
    (run_model b s).1.root_ops = b.rootOperators ∪ gpuMetalOps := by
  rw [run_model_gpu b s h]

lemma run_model_gpu_backends (b : Bundle) (s : Accum)
    (h : set_has_metal_gpu_operators b.rootOperators = true) :
    (run_model b s).1.enabled_backends = insert "Metal GPU" s.enabled_backends := by
  rw [run_model_gpu b s h]

lemma run_model_gpu_tags (b : Bundle) (s : Accum)
    (h : set_has_metal_gpu_operators b.rootOperators = true) :
    (run_model b s).1.called_kernel_tags
      = s.called_kernel_tags.store "__unused__" {"Float"} := by
  rw [run_model_gpu b s h]

lemma run_model_gpu_events (b : Bundle) (s : Accum)
    (h : set_has_metal_gpu_operators b.rootOperators = true) :
    (run_model b s).2
      = Event.beginPass b.path ::
          consumeEvents TensorOrigin.bundledInput b.bundledInputTensors := by
  rw [run_model_gpu b s h]

lemma run_model_cpu_root (b : Bundle) (s : Accum)
    (h : set_has_metal_gpu_operators b.rootOperators = false) :
    (run_model b s).1.root_ops = b.rootOperators := by
  rw [run_model_cpu b s h]

lemma run_model_cpu_backends (b : Bundle) (s : Accum)
    (h : set_has_metal_gpu_operators b.rootOperators = false) :
    (run_model b s).1.enabled_backends = insert "CPU" s.enabled_backends := by
  rw [run_model_cpu b s h]

lemma run_model_cpu_tags (b : Bundle) (s : Accum)
    (h : set_has_metal_gpu_operators b.rootOperators = false) :
    (run_model b s).1.called_kernel_tags = s.called_kernel_tags := by
  rw [run_model_cpu b s h]

lemma isPassBody_consumeEvents (origin : TensorOrigin) (l : List Nat) (e : Event)
    (he : e ∈ consumeEvents origin l) : isPassBody e = true := by
  rcases List.mem_map.mp he with ⟨t, _, rfl⟩
  rfl

lemma run_model_events_shape (b : Bundle) (s : Accum) :
    ∃ body, (run_model b s).2 = Event.beginPass b.path :: body ∧
      ∀ e ∈ body, isPassBody e = true := by
  unfold run_model afterRootAssign
  by_cases h : set_has_metal_gpu_operators b.rootOperators
  · rw [if_pos h]
    exact ⟨_, rfl, isPassBody_consumeEvents _ _⟩
  · rw [if_neg h]
    refine ⟨_, rfl, ?_⟩
    intro e he
    rcases List.mem_append.mp he with hin | hrun
    · exact isPassBody_consumeEvents _ _ e hin
    · by_cases hns : b.hasNewStyleBundledInputs
      · rw [if_pos hns] at hrun
        rcases List.mem_flatMap.mp hrun with ⟨entry, _, hmem⟩
        rcases List.mem_cons.mp hmem with rfl | hc
        · rfl
        · exact isPassBody_consumeEvents _ _ e hc
      · rw [if_neg hns] at hrun
        rcases List.mem_cons.mp hrun with rfl | hc
        · rfl
        · exact isPassBody_consumeEvents _ _ e hc

lemma isBeginPass_of_passBody (e : Event) (h : isPassBody e = true) :
    isBeginPass e = false := by
  cases e <;> simp_all [isPassBody, isBeginPass]

lemma insertRange_preserves :
    ∀ (l : List (String × Finset String)) (m : KernelTags) (k : String) (v : Finset String),
      m k = some v → KernelTags.insertRange m l k = some v
  | [], _, _, _, h => h
  | kv :: t, m, k, v, h => by
    unfold KernelTags.insertRange
    rw [List.foldl_cons]
    apply insertRange_preserves t
    by_cases hk : k = kv.1
    · subst hk
      simp [h]
    · simp only [if_neg hk, h]

lemma insertRange_of_absent :
    ∀ (l : List (String × Finset String)) (m : KernelTags) (k : String) (v : Finset String),
      m k = none → l.lookup k = some v → KernelTags.insertRange m l k = some v
  | [], _, _, _, _, hl => by simp [List.lookup] at hl
  | (k', v') :: t, m, k, v, hm, hl => by
    unfold KernelTags.insertRange
    rw [List.foldl_cons]
    by_cases hk : k = k'
    · simp only [List.lookup, hk, beq_self_eq_true, Option.some.injEq] at hl
      apply insertRange_preserves t
      show (if k = k' then some ((m k').getD v') else m k) = some v
      rw [if_pos hk, ← hk, hm, Option.getD_none, hl]
    · have hbeq : (k == k') = false := beq_eq_false_iff_ne.mpr hk
      simp only [List.lookup, hbeq] at hl
      exact insertRange_of_absent t _ k v
        (by show (if k = k' then some ((m k').getD v') else m k) = none
            rw [if_neg hk, hm]) hl

lemma store_same (m : KernelTags) (key : String) (val : Finset String) :
    m.store key val key = some val := if_pos rfl

lemma store_other (m : KernelTags) (key : String) (val : Finset String) (k : String)
    (h : k ≠ key) : m.store key val k = m k := if_neg h

/-! ## Claim theorems about the execution passes and the session driver -/

/-- C1: for a bundle whose declared root-operator set intersects the fixed
GPU-operator reference table, an execution pass performs no forward
inference: the reference table is unioned into the root-operator accumulator
(so the manifest's `rootOperators` is a superset of the table), the
`"Metal GPU"` backend is marked enabled (also in the manifest), exactly the
one synthetic kernel-dtype entry `"__unused__" ↦ {"Float"}` is written (all
other kernel tags are untouched), and the post-processing hook is applied to
exactly the bundled-input tensors, never to inference results. -/
theorem gpu_bundle_pass (env : TraceEnv) (b : Bundle) (s : Accum)
    (h : (b.rootOperators ∩ gpuMetalOps).Nonempty) :
    gpuMetalOps ⊆ (run_model b s).1.root_ops ∧
    gpuMetalOps ⊆ (trace_run env b).1.root_ops ∧
    "Metal GPU" ∈ (run_model b s).1.enabled_backends ∧
    "Metal GPU" ∈ (trace_run env b).1.enabled_backends ∧
    (run_model b s).1.called_kernel_tags "__unused__" = some {"Float"} ∧
    (∀ k, k ≠ "__unused__" →
        (run_model b s).1.called_kernel_tags k = s.called_kernel_tags k) ∧
    (run_model b s).2
      = Event.beginPass b.path ::
          consumeEvents TensorOrigin.bundledInput b.bundledInputTensors ∧
    (∀ mth, Event.runInference mth ∉ (run_model b s).2) := by
  have ht : set_has_metal_gpu_operators b.rootOperators = true := decide_eq_true h
  refine ⟨?_, ?_, ?_, ?_, ?_, ?_, ?_, ?_⟩
  · rw [run_model_gpu_root b s ht]
    exact Finset.subset_union_right
  · show gpuMetalOps ⊆ (run_model b (run_model b Accum.init).1).1.root_ops
    rw [run_model_gpu_root b (run_model b Accum.init).1 ht]
    exact Finset.subset_union_right
  · rw [run_model_gpu_backends b s ht]
    exact Finset.mem_insert_self _ _
  · show "Metal GPU" ∈ (run_model b (run_model b Accum.init).1).1.enabled_backends
    rw [run_model_gpu_backends b (run_model b Accum.init).1 ht]
    exact Finset.mem_insert_self _ _
  · rw [run_model_gpu_tags b s ht]
    exact store_same _ _ _
  · intro k hk
    rw [run_model_gpu_tags b s ht]
    exact store_other _ _ _ _ hk
  · exact run_model_gpu_events b s ht
  · intro mth
    rw [run_model_gpu_events b s ht]
    simp [consumeEvents]

/-- Witness for C1 at a concrete GPU-rooted bundle. -/
theorem gpu_bundle_pass_witness :
    (bGpuOnly.rootOperators ∩ gpuMetalOps).Nonempty ∧
    "Metal GPU" ∈ (run_model bGpuOnly Accum.init).1.enabled_backends ∧
    (run_model bGpuOnly Accum.init).1.called_kernel_tags "__unused__" = some {"Float"} := by
  have h : (bGpuOnly.rootOperators ∩ gpuMetalOps).Nonempty := by decide
  have hthm := gpu_bundle_pass envTrivial bGpuOnly Accum.init h
  exact ⟨h, hthm.2.2.1, hthm.2.2.2.2.1⟩

/-- C2 counterexample: with both execution passes recording nothing and an
empty baseline set, `tracedOperators` still contains the operator recorded by
the warm-up block, so it is not equal to the union of the two passes'
recordings with the baseline added. -/
theorem traced_union_counterexample :
    (trace_run envWarm bLegacyEmpty).1.traced_operators
      ≠ envWarm.op_pass1 ∪ envWarm.op_pass2 ∪ envWarm.always_included_traced_ops := by
  decide

/-- C2 amended: `tracedOperators` equals the union of the warm-up block's
operator recording, the two passes' recordings, and the baseline set; the
merge is invariant under exchanging the two pass recordings and idempotent
under re-merging either pass recording. -/
theorem traced_operators_union (env : TraceEnv) (b : Bundle) :
    (trace_run env b).1.traced_operators
      = env.op_setup ∪ env.op_pass1 ∪ env.op_pass2 ∪ env.always_included_traced_ops ∧
    (trace_run (swapPasses env) b).1.traced_operators
      = (trace_run env b).1.traced_operators ∧
    (trace_run env b).1.traced_operators ∪ env.op_pass1
      = (trace_run env b).1.traced_operators ∧
    (trace_run env b).1.traced_operators ∪ env.op_pass2
      = (trace_run env b).1.traced_operators := by
  refine ⟨rfl, ?_, ?_, ?_⟩
  · show env.op_setup ∪ env.op_pass2 ∪ env.op_pass1 ∪ env.always_included_traced_ops
        = env.op_setup ∪ env.op_pass1 ∪ env.op_pass2 ∪ env.always_included_traced_ops
    ext x
    simp only [Finset.mem_union]
    tauto
  · show env.op_setup ∪ env.op_pass1 ∪ env.op_pass2 ∪ env.always_included_traced_ops
          ∪ env.op_pass1
        = env.op_setup ∪ env.op_pass1 ∪ env.op_pass2 ∪ env.always_included_traced_ops
    ext x
    simp only [Finset.mem_union]
    tauto
  · show env.op_setup ∪ env.op_pass1 ∪ env.op_pass2 ∪ env.always_included_traced_ops
          ∪ env.op_pass2
        = env.op_setup ∪ env.op_pass1 ∪ env.op_pass2 ∪ env.always_included_traced_ops
    ext x
    simp only [Finset.mem_union]
    tauto

/-- C3: the always-included baseline operator set is a subset of the
manifest's `tracedOperators` for every session. -/
theorem baseline_always_in_traced (env : TraceEnv) (b : Bundle) :
    env.always_included_traced_ops ⊆ (trace_run env b).1.traced_operators := by
  have h : (trace_run env b).1.traced_operators
      = env.op_setup ∪ env.op_pass1 ∪ env.op_pass2 ∪ env.always_included_traced_ops := rfl
  rw [h]
  exact Finset.subset_union_right

/-- C4 counterexample: the first statement of `run_model` assigns (and
thereby overwrites) the `root_ops` accumulator with the bundle's declared
root operators, so at this point of the second pass `"aten::relu"` — present
at the end of the first pass via the GPU-table union — is absent. -/
theorem accumulator_overwritten_counterexample :
    "aten::relu" ∈ (run_model bGpuOnly Accum.init).1.root_ops ∧
    "aten::relu" ∉ (afterRootAssign bGpuOnly (run_model bGpuOnly Accum.init).1).root_ops := by
  decide

/-- C4 amended: monotonicity holds at pass boundaries and into the manifest:
everything present in the accumulators at the end of the first pass is
present at the end of the second pass (kernel-dtype sets not shrunk), and the
second pass's accumulators flow into the manifest unreduced — but not at
every interior point, since `run_model` first overwrites `root_ops` with the
declared root set before re-adding to it. -/
theorem accumulators_monotone_passes (env : TraceEnv) (b : Bundle) :
    (run_model b Accum.init).1.root_ops
        ⊆ (run_model b (run_model b Accum.init).1).1.root_ops ∧
    (run_model b Accum.init).1.enabled_backends
        ⊆ (run_model b (run_model b Accum.init).1).1.enabled_backends ∧
    (∀ k v, (run_model b Accum.init).1.called_kernel_tags k = some v →
        ∃ w, (run_model b (run_model b Accum.init).1).1.called_kernel_tags k = some w
          ∧ v ⊆ w) ∧
    (run_model b (run_model b Accum.init).1).1.root_ops = (trace_run env b).1.root_ops ∧
    (run_model b (run_model b Accum.init).1).1.enabled_backends
        = (trace_run env b).1.enabled_backends ∧
    (∀ k v, (run_model b (run_model b Accum.init).1).1.called_kernel_tags k = some v →
        ∃ w, (trace_run env b).1.called_kernel_tags k = some w ∧ v ⊆ w) := by
  have hman : ∀ k v,
      (run_model b (run_model b Accum.init).1).1.called_kernel_tags k = some v →
      ∃ w, (trace_run env b).1.called_kernel_tags k = some w ∧ v ⊆ w := by
    intro k v hk
    exact ⟨v, insertRange_preserves env.kd_recorded _ k v hk, Finset.Subset.refl v⟩
  by_cases h : set_has_metal_gpu_operators b.rootOperators
  · refine ⟨?_, ?_, ?_, rfl, rfl, hman⟩
    · rw [run_model_gpu_root b (run_model b Accum.init).1 h,
        run_model_gpu_root b Accum.init h]
    · rw [run_model_gpu_backends b (run_model b Accum.init).1 h]
      exact Finset.subset_insert _ _
    · intro k v hk
      rw [run_model_gpu_tags b Accum.init h] at hk
      rw [run_model_gpu_tags b (run_model b Accum.init).1 h]
      by_cases hku : k = "__unused__"
      · subst hku
        rw [store_same] at hk
        refine ⟨{"Float"}, store_same _ _ _, ?_⟩
        rw [← Option.some.inj hk]
      · rw [store_other _ _ _ _ hku] at hk
        exact absurd hk (by simp [Accum.init])
  · have hf : set_has_metal_gpu_operators b.rootOperators = false := by
      simpa using h
    refine ⟨?_, ?_, ?_, rfl, rfl, hman⟩
    · rw [run_model_cpu_root b (run_model b Accum.init).1 hf,
        run_model_cpu_root b Accum.init hf]
    · rw [run_model_cpu_backends b (run_model b Accum.init).1 hf]
      exact Finset.subset_insert _ _
    · intro k v hk
      rw [run_model_cpu_tags b Accum.init hf] at hk
      exact absurd hk (by simp [Accum.init])

/-- Body events of a pass never change the engine register and emit no pass
boundary, so `passEngines` walks over them unchanged. -/
lemma passEngines_skip_body :
    ∀ (l rest : List Event) (cur : Option QEngine),
      (∀ e ∈ l, isPassBody e = true) →
      passEngines (l ++ rest) cur = passEngines rest cur
  | [], _, _, _ => rfl
  | a :: t, rest, cur, h => by
    have ha := h a (List.mem_cons_self a t)
    have ht : ∀ e ∈ t, isPassBody e = true := fun e he => h e (List.mem_cons_of_mem a he)
    cases a <;>
      first
        | exact passEngines_skip_body t rest cur ht
        | simp [isPassBody] at ha

lemma filter_beginPass_body (l : List Event) (h : ∀ e ∈ l, isPassBody e = true) :
    l.filter isBeginPass = [] := by
  apply List.filter_eq_nil_iff.mpr
  intro a ha
  rw [isBeginPass_of_passBody a (h a ha)]
  exact Bool.false_ne_true

lemma count_readObservers_body (l : List Event) (h : ∀ e ∈ l, isPassBody e = true) :
    l.count Event.readObservers = 0 := by
  apply List.count_eq_zero.mpr
  intro hmem
  have hro := h _ hmem
  simp [isPassBody] at hro

/-- C8: before the first execution pass the driver sets a backend engine and
clears the operator-suppression list; the session then runs exactly two
execution passes over the same bundle path, the first with QNNPACK active
and the second with the different engine FBGEMM active, and the observers
are read only once, after both passes (the read is the final event). -/
theorem trace_run_session_protocol (env : TraceEnv) (b : Bundle) :
    Event.clearUnobservedOperators
        ∈ (trace_run env b).2.takeWhile (fun e => !isBeginPass e) ∧
    Event.setQEngine QEngine.QNNPACK
        ∈ (trace_run env b).2.takeWhile (fun e => !isBeginPass e) ∧
    (trace_run env b).2.filter isBeginPass
        = [Event.beginPass b.path, Event.beginPass b.path] ∧
    passEngines (trace_run env b).2 none
        = [some QEngine.QNNPACK, some QEngine.FBGEMM] ∧
    QEngine.QNNPACK ≠ QEngine.FBGEMM ∧
    (trace_run env b).2.getLast? = some Event.readObservers ∧
    (trace_run env b).2.count Event.readObservers = 1 := by
  obtain ⟨body1, he1, hb1⟩ := run_model_events_shape b Accum.init
  obtain ⟨body2, he2, hb2⟩ := run_model_events_shape b (run_model b Accum.init).1
  have hevs : (trace_run env b).2
      = [Event.setQEngine QEngine.QNNPACK, Event.clearUnobservedOperators,
          Event.installTracers, Event.callSetupMethods]
        ++ (run_model b Accum.init).2 ++ [Event.setQEngine QEngine.FBGEMM]
        ++ (run_model b (run_model b Accum.init).1).2 ++ [Event.readObservers] := rfl
  have hevs2 : (trace_run env b).2
      = Event.setQEngine QEngine.QNNPACK :: Event.clearUnobservedOperators ::
          Event.installTracers :: Event.callSetupMethods :: Event.beginPass b.path ::
          (body1 ++ (Event.setQEngine QEngine.FBGEMM :: Event.beginPass b.path ::
            (body2 ++ [Event.readObservers]))) := by
    rw [hevs, he1, he2]
    simp
  refine ⟨?_, ?_, ?_, ?_, by simp, ?_, ?_⟩
  · rw [hevs2]
    simp [List.takeWhile_cons, isBeginPass]
  · rw [hevs2]
    simp [List.takeWhile_cons, isBeginPass]
  · rw [hevs2]
    simp [List.filter_cons, List.filter_append, isBeginPass,
      filter_beginPass_body body1 hb1, filter_beginPass_body body2 hb2]
  · rw [hevs2]
    have h1 : passEngines
        (Event.setQEngine QEngine.QNNPACK :: Event.clearUnobservedOperators ::
          Event.installTracers :: Event.callSetupMethods :: Event.beginPass b.path ::
          (body1 ++ (Event.setQEngine QEngine.FBGEMM :: Event.beginPass b.path ::
            (body2 ++ [Event.readObservers])))) none
        = some QEngine.QNNPACK ::
            passEngines
              (body1 ++ (Event.setQEngine QEngine.FBGEMM :: Event.beginPass b.path ::
                (body2 ++ [Event.readObservers]))) (some QEngine.QNNPACK) := rfl
    rw [h1, passEngines_skip_body body1 _ _ hb1]
    have h2 : passEngines
        (Event.setQEngine QEngine.FBGEMM :: Event.beginPass b.path ::
          (body2 ++ [Event.readObservers])) (some QEngine.QNNPACK)
        = some QEngine.FBGEMM ::
            passEngines (body2 ++ [Event.readObservers]) (some QEngine.FBGEMM) := rfl
    rw [h2, passEngines_skip_body body2 _ _ hb2]
    rfl
  · rw [hevs]
    exact List.getLast?_concat _
  · rw [hevs, he1, he2]
    simp [List.count_append, List.count_cons,
      count_readObservers_body body1 hb1, count_readObservers_body body2 hb2]

/-- C9: the warm-up block runs after the tracers are installed and before
any execution pass, and whatever the observers recorded during it reaches
the returned manifest: the operator recording is a subset of
`tracedOperators`, and every kernel tag recorded under a non-reserved key
reaches `kernelTags` un-shrunk. -/
theorem warmup_block_recorded (env : TraceEnv) (b : Bundle) :
    (trace_run env b).2.takeWhile (fun e => !isBeginPass e)
        = [Event.setQEngine QEngine.QNNPACK, Event.clearUnobservedOperators,
            Event.installTracers, Event.callSetupMethods] ∧
    env.op_setup ⊆ (trace_run env b).1.traced_operators ∧
    (∀ k v, k ≠ "__unused__" → env.kd_recorded.lookup k = some v →
        ∃ w, (trace_run env b).1.called_kernel_tags k = some w ∧ v ⊆ w) := by
  obtain ⟨body1, he1, hb1⟩ := run_model_events_shape b Accum.init
  obtain ⟨body2, he2, hb2⟩ := run_model_events_shape b (run_model b Accum.init).1
  have hevs : (trace_run env b).2
      = [Event.setQEngine QEngine.QNNPACK, Event.clearUnobservedOperators,
          Event.installTracers, Event.callSetupMethods]
        ++ (run_model b Accum.init).2 ++ [Event.setQEngine QEngine.FBGEMM]
        ++ (run_model b (run_model b Accum.init).1).2 ++ [Event.readObservers] := rfl
  refine ⟨?_, ?_, ?_⟩
  · rw [hevs, he1, he2]
    simp [List.takeWhile_cons, isBeginPass]
  · intro x hx
    have h : (trace_run env b).1.traced_operators
        = env.op_setup ∪ env.op_pass1 ∪ env.op_pass2 ∪ env.always_included_traced_ops := rfl
    rw [h]
    exact Finset.mem_union_left _ (Finset.mem_union_left _ (Finset.mem_union_left _ hx))
  · intro k v hk hl
    have htags : ∀ q, q ≠ "__unused__" →
        (run_model b (run_model b Accum.init).1).1.called_kernel_tags q = none := by
      intro q hq
      by_cases hgpu : set_has_metal_gpu_operators b.rootOperators
      · rw [run_model_gpu_tags b (run_model b Accum.init).1 hgpu,
          store_other _ _ _ _ hq, run_model_gpu_tags b Accum.init hgpu,
          store_other _ _ _ _ hq]
        rfl
      · have hf : set_has_metal_gpu_operators b.rootOperators = false := by simpa using hgpu
        rw [run_model_cpu_tags b (run_model b Accum.init).1 hf,
          run_model_cpu_tags b Accum.init hf]
        rfl
    refine ⟨v, ?_, Finset.Subset.refl v⟩
    show KernelTags.insertRange
        (run_model b (run_model b Accum.init).1).1.called_kernel_tags env.kd_recorded k
      = some v
    exact insertRange_of_absent env.kd_recorded _ k v (htags k hk) hl

/-- Witness for C9 at the warm-up-only environment. -/
theorem warmup_block_recorded_witness :
    envWarm.op_setup ⊆ (trace_run envWarm bLegacyEmpty).1.traced_operators ∧
    ∃ w, (trace_run envWarm bLegacyEmpty).1.called_kernel_tags "copy_kernel" = some w ∧
      ({"Float"} : Finset String) ⊆ w := by
  have h := warmup_block_recorded envWarm bLegacyEmpty
  exact ⟨h.2.1, h.2.2 "copy_kernel" {"Float"} (by decide) (by decide)⟩

/-- Witness for C4 (amended) at a concrete GPU-rooted bundle. -/
theorem accumulators_monotone_passes_witness :
    (run_model bGpuOnly (run_model bGpuOnly Accum.init).1).1.called_kernel_tags "__unused__"
        = some {"Float"} ∧
    ∃ w, (trace_run envTrivial bGpuOnly).1.called_kernel_tags "__unused__" = some w ∧
      ({"Float"} : Finset String) ⊆ w := by
  refine ⟨by decide, ?_⟩
  exact (accumulators_monotone_passes envTrivial bGpuOnly).2.2.2.2.2 "__unused__"
    {"Float"} (by decide)

end ModelTracer
